import Mathlib

/-!
Shallow embedding of the `caet` crate (`src/lib.rs`): a turn-taking test
driver for cause-effect systems.  The Rust driving loop `judge` is unbounded,
so it is embedded with an explicit fuel parameter; `none` means the fuel ran
out before the arbiter returned a terminal verdict or an internal error.
The arbiter (`Judge` trait object) is embedded as a state type `A` together
with a step function `next : A → List M → Except E (Judgment M S × A)`, and
the subject (`FnMut(Change) -> Vec<Change>` closure) as a state type `O`
together with `object : O → M → List M × O`.
-/

set_option autoImplicit false

namespace Caet

/-- Rust enum `Judgment<M, S>`: the verdict returned by a judge each turn. -/
inductive Judgment (M S : Type) where
  | Continue (msg : M)
  | Halt (fault : S)
  | Done
  deriving DecidableEq

/-- Rust struct `Outcome<J>`: the final judgment plus the number of times the
judge has called the task. -/
structure Outcome (M S : Type) where
  judgment : Judgment M S
  calls : Nat
  deriving DecidableEq

/-- Rust private helper `Outcome::decompose` (trait `PrivateOutcomeDecompose`). -/
def Outcome.decompose {M S : Type} (o : Outcome M S) : Judgment M S × Nat :=
  (o.judgment, o.calls)

/-- The body of the Rust `judge` loop.  `out` is the `out` vector (reactions
accumulated since the last arbiter call, `mem::take`n on each call), `ite` the
`ite` counter.  Fuel bounds the number of iterations; the Rust loop has no
such bound. -/
def judgeLoop {A M S E O : Type} (next : A → List M → Except E (Judgment M S × A))
    (object : O → M → List M × O) :
    Nat → A → O → List M → Nat → Option (Except E (Outcome M S))
  | 0, _, _, _, _ => none
  | fuel + 1, a, o, out, ite =>
    match next a out with
    | .ok (.Continue msg, a') =>
        let p := object o msg
        judgeLoop next object fuel a' p.2 p.1 (ite + 1)
    | .ok (j, _) => some (.ok ⟨j, ite⟩)
    | .error e => some (.error e)

/-- Rust `judge`: run the loop starting from the empty reaction vector and a
zero iteration count. -/
def judge {A M S E O : Type} (next : A → List M → Except E (Judgment M S × A))
    (a : A) (object : O → M → List M × O) (o : O) (fuel : Nat) :
    Option (Except E (Outcome M S)) :=
  judgeLoop next object fuel a o [] 0

/-- The message Rust `judge_panic` panics with on `Halt` (subject fault). -/
def subjectFaultMsg (count : Nat) (why : String) : String :=
  "subject fault (iter count: " ++ toString count ++ "): " ++ why

/-- The message Rust `judge_panic` panics with on a terminal `Continue`. -/
def judgeFaultMsg (count : Nat) : String :=
  "judge fault (iter count: " ++ toString count ++ "): judge stopped at continue"

/-- The message Rust `judge_panic` panics with on an internal error. -/
def judgeFailMsg (e : String) : String :=
  "judge fail (internal error): " ++ e

/-- Rust `judge_panic`: return the call count on `Done`, otherwise panic.  A
panic is embedded as `.inr message`; `showFault` and `showErr` stand for the
`Display` instances the Rust signature demands.  `none` again means the fuel
ran out. -/
def judge_panic {A M S E O : Type} (next : A → List M → Except E (Judgment M S × A))
    (a : A) (object : O → M → List M × O) (o : O) (fuel : Nat)
    (showFault : S → String) (showErr : E → String) : Option (Nat ⊕ String) :=
  match ((judge next a object o fuel).map (fun r => r.map Outcome.decompose) :
      Option (Except E (Judgment M S × Nat))) with
  | none => none
  | some (.ok (.Done, count)) => some (.inl count)
  | some (.ok (.Halt why, count)) => some (.inr (subjectFaultMsg count (showFault why)))
  | some (.ok (.Continue _, count)) => some (.inr (judgeFaultMsg count))
  | some (.error e) => some (.inr (judgeFailMsg (showErr e)))

/-! ### The stack demonstration (Rust module `test_stack`) -/

/-- Rust enum `StackChange`.  (`i32` values are embedded as `Int`; the code
only ever compares them for equality and prints them.) -/
inductive StackChange where
  | Push (x : Int)
  | Pop
  | Value (v : Option Int)
  deriving DecidableEq

/-- Rust struct `StackJudge`.  `scenario` and `expect` are `VecDeque`s (front
at the list head), `ref_impl` is a `Vec` (top of the stack at the list end). -/
structure StackJudge where
  scenario : List StackChange
  ref_impl : List Int
  expect : List Int
  deriving DecidableEq

/-- Result of the `for (eff, exp) in reactions.iter().zip(self.expect.drain(..))`
loop in `StackJudge::next`: an early `return Ok(Judgment::Halt(fault))`, a
`break` with `put_back = Some(putBack)`, or normal loop completion. -/
inductive LoopExit where
  | halt (fault : String)
  | brk (putBack : Int)
  | finished
  deriving DecidableEq

/-- The comparison loop of `StackJudge::next`, iterating over
`reactions.iter().zip(self.expect.drain(0..reactions.len()))`. -/
def checkLoop : List StackChange → List Int → LoopExit
  | eff :: effs, exp :: exps =>
    match eff with
    | .Value (some value) =>
        if value ≠ exp then
          .halt ("expected " ++ toString exp ++ ", got " ++ toString value)
        else
          checkLoop effs exps
    | .Value none => .brk exp
    | _ => .halt "undefined response from stack"
  | _, _ => .finished

/-- The tail of `StackJudge::next` after the comparison loop: pop the next
scenario action, simulate it on the reference stack, and either continue with
that action, report `Done` on an exhausted scenario, or fail with an internal
error. -/
def stepScenario (j : StackJudge) : Except String (Judgment StackChange String × StackJudge) :=
  match j.scenario with
  | [] => .ok (.Done, j)
  | act :: rest =>
    match act with
    | .Push x => .ok (.Continue (.Push x), ⟨rest, j.ref_impl ++ [x], j.expect⟩)
    | .Pop =>
        match j.ref_impl.getLast? with
        | some x => .ok (.Continue .Pop, ⟨rest, j.ref_impl.dropLast, j.expect ++ [x]⟩)
        | none => .error "bad sim: more pops than pushes"
    | .Value _ => .error "bad sim: Value in scenario"

/-- Rust `StackJudge::next`.  Note on the drain semantics: `VecDeque::drain`
removes the whole range `0..reactions.len()` when the `Drain` value is
dropped, which happens on every exit from the loop — early `return`, `break`,
or completion — so on every path past the length check `expect` loses its
first `reactions.len()` entries, and only the `break` path pushes the single
`put_back` entry back to the front. -/
def StackJudge.next (j : StackJudge) (reactions : List StackChange) :
    Except String (Judgment StackChange String × StackJudge) :=
  if j.expect.length < reactions.length then
    .ok (.Halt "too many reactions", j)
  else
    match checkLoop reactions (j.expect.take reactions.length) with
    | .halt s => .ok (.Halt s, ⟨j.scenario, j.ref_impl, j.expect.drop reactions.length⟩)
    | .brk e => stepScenario ⟨j.scenario, j.ref_impl, e :: j.expect.drop reactions.length⟩
    | .finished => stepScenario ⟨j.scenario, j.ref_impl, j.expect.drop reactions.length⟩

/-- Rust `StackJudge::new_scenario`. -/
def StackJudge.new_scenario (scenario : List StackChange) : StackJudge :=
  ⟨scenario, [], []⟩

/-- Rust `scenario_1`: a valid push-and-pop scenario. -/
def scenario_1 : StackJudge :=
  StackJudge.new_scenario
    [.Push 1, .Push 2, .Push 3, .Pop, .Pop, .Push 4, .Pop]

/-- Rust `scenario_2`: a scenario with more pops than pushes. -/
def scenario_2 : StackJudge :=
  StackJudge.new_scenario [.Push 1, .Pop, .Pop]

/-- Rust `demo_impl_good`: mirrors a real stack (state: the `Vec<i32>` it
borrows, top at the end) and reports popped values synchronously.  The
`Value(_)` arm panics in Rust; it is unreachable under `StackJudge`, whose
`Continue` messages are always `Push` or `Pop`. -/
def demo_impl_good (st : List Int) (msg : StackChange) : List StackChange × List Int :=
  match msg with
  | .Push x => ([], st ++ [x])
  | .Pop =>
      match st.getLast? with
      | none => ([.Value none], st)
      | some x => ([.Value (some x)], st.dropLast)
  | .Value _ => ([], st)

/-- Rust `demo_impl_discard`: discards every input. -/
def demo_impl_discard (u : Unit) (_msg : StackChange) : List StackChange × Unit :=
  ([], u)

/-- Rust `demo_impl_dumb`: produces a value even on a push.  The `Value(_)`
arm panics in Rust and is unreachable under `StackJudge`. -/
def demo_impl_dumb (u : Unit) (msg : StackChange) : List StackChange × Unit :=
  match msg with
  | .Push _ => ([.Value none], u)
  | .Pop => ([.Value (some 0)], u)
  | .Value _ => ([], u)

/-- Rust `demo_impl_zero_smart`: tracks the stack size but reports `0` for
every pop.  The `Value(_)` arm panics in Rust and is unreachable under
`StackJudge`. -/
def demo_impl_zero_smart (count : Nat) (msg : StackChange) : List StackChange × Nat :=
  match msg with
  | .Push _ => ([], count + 1)
  | .Pop =>
      if count = 0 then ([.Value none], count)
      else ([.Value (some 0)], count - 1)
  | .Value _ => ([], count)

/-! ### Instrumentation of the driving loop

`judgeLoopInstr` is `judgeLoop` with two extra accumulators: `oc` counts the
applications of `object` (the subject callable) and `nc` counts the
applications of `next` (the arbiter method).  `nextCallArgs` records, in
order, the reaction vector passed to each `next` call.  Helper lemmas relate
these instrumented forms back to `judgeLoop`. -/

/-- `judgeLoop` with counters for subject invocations (`oc`) and arbiter
invocations (`nc`); `object` is applied exactly where `oc` is bumped, and
`next` exactly where `nc` is bumped. -/
def judgeLoopInstr {A M S E O : Type} (next : A → List M → Except E (Judgment M S × A))
    (object : O → M → List M × O) :
    Nat → A → O → List M → Nat → Nat → Nat → Option (Except E (Outcome M S × Nat × Nat))
  | 0, _, _, _, _, _, _ => none
  | fuel + 1, a, o, out, ite, oc, nc =>
    match next a out with
    | .ok (.Continue msg, a') =>
        let p := object o msg
        judgeLoopInstr next object fuel a' p.2 p.1 (ite + 1) (oc + 1) (nc + 1)
    | .ok (j, _) => some (.ok (⟨j, ite⟩, oc, nc + 1))
    | .error e => some (.error e)

/-- `judge` with invocation counters, both starting at zero. -/
def judgeInstr {A M S E O : Type} (next : A → List M → Except E (Judgment M S × A))
    (a : A) (object : O → M → List M × O) (o : O) (fuel : Nat) :
    Option (Except E (Outcome M S × Nat × Nat)) :=
  judgeLoopInstr next object fuel a o [] 0 0 0

/-- The list of reaction vectors passed to successive `next` calls by the
loop, starting from accumulated reactions `out`. -/
def nextCallArgs {A M S E O : Type} (next : A → List M → Except E (Judgment M S × A))
    (object : O → M → List M × O) : Nat → A → O → List M → List (List M)
  | 0, _, _, _ => []
  | fuel + 1, a, o, out =>
    out :: (match next a out with
      | .ok (.Continue msg, a') =>
          let p := object o msg
          nextCallArgs next object fuel a' p.2 p.1
      | _ => [])

/-- The reaction vectors passed to `next` over a whole run of `judge`:
the driver starts from the empty vector. -/
def judgeNextArgs {A M S E O : Type} (next : A → List M → Except E (Judgment M S × A))
    (a : A) (object : O → M → List M × O) (o : O) (fuel : Nat) : List (List M) :=
  nextCallArgs next object fuel a o []

theorem judgeLoopInstr_fst {A M S E O : Type}
    (next : A → List M → Except E (Judgment M S × A)) (object : O → M → List M × O) :
    ∀ (fuel : Nat) (a : A) (o : O) (out : List M) (ite oc nc : Nat),
      judgeLoop next object fuel a o out ite =
        (judgeLoopInstr next object fuel a o out ite oc nc).map (fun r => r.map Prod.fst) := by
  intro fuel
  induction fuel with
  | zero => intro a o out ite oc nc; rfl
  | succ n ih =>
      intro a o out ite oc nc
      unfold judgeLoop judgeLoopInstr
      cases h : next a out with
      | error e => rfl
      | ok p =>
          obtain ⟨jud, a'⟩ := p
          cases jud with
          | Continue msg =>
              exact ih a' (object o msg).2 (object o msg).1 (ite + 1) (oc + 1) (nc + 1)
          | Halt s => rfl
          | Done => rfl

theorem judgeLoopInstr_counts {A M S E O : Type}
    (next : A → List M → Except E (Judgment M S × A)) (object : O → M → List M × O) :
    ∀ (fuel : Nat) (a : A) (o : O) (out : List M) (ite oc nc : Nat)
      (outc : Outcome M S) (oc' nc' : Nat),
      judgeLoopInstr next object fuel a o out ite oc nc = some (.ok (outc, oc', nc')) →
      oc' + ite = outc.calls + oc ∧ nc' + ite = outc.calls + nc + 1 := by
  intro fuel
  induction fuel with
  | zero => intro a o out ite oc nc outc oc' nc' h; exact absurd h (by simp [judgeLoopInstr])
  | succ n ih =>
      intro a o out ite oc nc outc oc' nc' h
      unfold judgeLoopInstr at h
      cases hn : next a out with
      | error e => rw [hn] at h; simp at h
      | ok p =>
          obtain ⟨jud, a'⟩ := p
          cases jud with
          | Continue msg =>
              rw [hn] at h
              have := ih a' (object o msg).2 (object o msg).1 (ite + 1) (oc + 1) (nc + 1)
                outc oc' nc' h
              omega
          | Halt s =>
              rw [hn] at h
              simp only [Option.some.injEq, Except.ok.injEq, Prod.mk.injEq] at h
              obtain ⟨h1, h2, h3⟩ := h
              rw [← h1, ← h2, ← h3]
              simp only []
              omega
          | Done =>
              rw [hn] at h
              simp only [Option.some.injEq, Except.ok.injEq, Prod.mk.injEq] at h
              obtain ⟨h1, h2, h3⟩ := h
              rw [← h1, ← h2, ← h3]
              simp only []
              omega

theorem nextCallArgs_length {A M S E O : Type}
    (next : A → List M → Except E (Judgment M S × A)) (object : O → M → List M × O) :
    ∀ (fuel : Nat) (a : A) (o : O) (out : List M) (ite oc nc : Nat)
      (outc : Outcome M S) (oc' nc' : Nat),
      judgeLoopInstr next object fuel a o out ite oc nc = some (.ok (outc, oc', nc')) →
      (nextCallArgs next object fuel a o out).length + nc = nc' := by
  intro fuel
  induction fuel with
  | zero => intro a o out ite oc nc outc oc' nc' h; exact absurd h (by simp [judgeLoopInstr])
  | succ n ih =>
      intro a o out ite oc nc outc oc' nc' h
      unfold judgeLoopInstr at h
      unfold nextCallArgs
      cases hn : next a out with
      | error e => rw [hn] at h; simp at h
      | ok p =>
          obtain ⟨jud, a'⟩ := p
          cases jud with
          | Continue msg =>
              rw [hn] at h
              have := ih a' (object o msg).2 (object o msg).1 (ite + 1) (oc + 1) (nc + 1)
                outc oc' nc' h
              simp only [List.length_cons]
              omega
          | Halt s =>
              rw [hn] at h
              simp only [Option.some.injEq, Except.ok.injEq, Prod.mk.injEq] at h
              obtain ⟨h1, h2, h3⟩ := h
              simp only [List.length_cons, List.length_nil]
              omega
          | Done =>
              rw [hn] at h
              simp only [Option.some.injEq, Except.ok.injEq, Prod.mk.injEq] at h
              obtain ⟨h1, h2, h3⟩ := h
              simp only [List.length_cons, List.length_nil]
              omega

theorem judgeLoop_no_continue {A M S E O : Type}
    (next : A → List M → Except E (Judgment M S × A)) (object : O → M → List M × O) :
    ∀ (fuel : Nat) (a : A) (o : O) (out : List M) (ite : Nat) (outc : Outcome M S),
      judgeLoop next object fuel a o out ite = some (.ok outc) →
      outc.judgment = .Done ∨ ∃ s, outc.judgment = .Halt s := by
  intro fuel
  induction fuel with
  | zero => intro a o out ite outc h; exact absurd h (by simp [judgeLoop])
  | succ n ih =>
      intro a o out ite outc h
      unfold judgeLoop at h
      cases hn : next a out with
      | error e => rw [hn] at h; simp at h
      | ok p =>
          obtain ⟨jud, a'⟩ := p
          cases jud with
          | Continue msg =>
              rw [hn] at h
              exact ih a' (object o msg).2 (object o msg).1 (ite + 1) outc h
          | Halt s =>
              rw [hn] at h
              simp only [Option.some.injEq, Except.ok.injEq] at h
              exact Or.inr ⟨s, by rw [← h]⟩
          | Done =>
              rw [hn] at h
              simp only [Option.some.injEq, Except.ok.injEq] at h
              exact Or.inl (by rw [← h])

/-- If the arbiter returns `Ok(Halt(s))` for the accumulated reactions, the
loop stops at once with that verdict and the current iteration count. -/
theorem judgeLoop_halt_step {A M S E O : Type}
    (next : A → List M → Except E (Judgment M S × A)) (object : O → M → List M × O)
    (fuel : Nat) (a a' : A) (o : O) (out : List M) (ite : Nat) (s : S)
    (h : next a out = .ok (.Halt s, a')) :
    judgeLoop next object (fuel + 1) a o out ite = some (.ok ⟨.Halt s, ite⟩) := by
  unfold judgeLoop
  rw [h]

/-- If the arbiter returns `Err(e)` for the accumulated reactions, the loop
stops at once, propagating `e`. -/
theorem judgeLoop_error_step {A M S E O : Type}
    (next : A → List M → Except E (Judgment M S × A)) (object : O → M → List M × O)
    (fuel : Nat) (a : A) (o : O) (out : List M) (ite : Nat) (e : E)
    (h : next a out = .error e) :
    judgeLoop next object (fuel + 1) a o out ite = some (.error e) := by
  unfold judgeLoop
  rw [h]

/-! ### Lemmas about the `StackJudge` comparison loop and scenario step -/

/-- A prefix of reactions that exactly matches the corresponding expectations
is consumed silently by the comparison loop. -/
theorem checkLoop_matched (ms : List Int) (effs : List StackChange) (exps : List Int) :
    checkLoop (ms.map (fun x => .Value (some x)) ++ effs) (ms ++ exps) =
      checkLoop effs exps := by
  induction ms with
  | nil => rfl
  | cons m rest ih => simp [checkLoop, ih]

/-- If the comparison loop breaks with a put-back value `e`, then some
reaction is `Value(None)`; the first such position `k` carries `e` as the
`k`-th expectation, and no earlier reaction is `Value(None)`. -/
theorem checkLoop_brk_first (r : List StackChange) (l : List Int) (e : Int)
    (h : checkLoop r l = .brk e) :
    ∃ k, r.get? k = some (.Value none) ∧ l.get? k = some e ∧
      ∀ i, i < k → r.get? i ≠ some (.Value none) := by
  induction r generalizing l with
  | nil => exact absurd h (by simp [checkLoop])
  | cons eff effs ih =>
      cases l with
      | nil => exact absurd h (by simp [checkLoop])
      | cons exp exps =>
          cases eff with
          | Push x => exact absurd h (by simp [checkLoop])
          | Pop => exact absurd h (by simp [checkLoop])
          | Value v =>
              cases v with
              | none =>
                  refine ⟨0, by simp, ?_, by omega⟩
                  simp only [checkLoop, LoopExit.brk.injEq] at h
                  simp [h]
              | some value =>
                  by_cases hv : value = exp
                  · have h' : checkLoop effs exps = .brk e := by
                      simpa [checkLoop, hv] using h
                    obtain ⟨k, hk1, hk2, hk3⟩ := ih exps h'
                    refine ⟨k + 1, by simpa using hk1, by simpa using hk2, ?_⟩
                    intro i hi
                    cases i with
                    | zero => simp
                    | succ i' => simpa using hk3 i' (by omega)
                  · exact absurd h (by simp [checkLoop, hv])

/-- If no reaction is `Value(None)`, the comparison loop cannot break. -/
theorem checkLoop_brk_of_mem (r : List StackChange) (l : List Int) (e : Int)
    (h : checkLoop r l = .brk e) : StackChange.Value none ∈ r := by
  obtain ⟨k, hk, -, -⟩ := checkLoop_brk_first r l e h
  exact List.get?_mem hk

/-- The scenario step either fails with an internal error or appends at most
one freshly popped value to the back of the expectation queue. -/
theorem stepScenario_expect (j : StackJudge) :
    (∃ e, stepScenario j = .error e) ∨
    (∃ jd j' t, stepScenario j = .ok (jd, j') ∧ j'.expect = j.expect ++ t ∧
      t.length ≤ 1) := by
  cases hs : j.scenario with
  | nil => exact Or.inr ⟨.Done, j, [], by simp [stepScenario, hs], by simp, by simp⟩
  | cons act rest =>
      cases act with
      | Push x =>
          exact Or.inr ⟨.Continue (.Push x), ⟨rest, j.ref_impl ++ [x], j.expect⟩, [],
            by simp [stepScenario, hs], by simp, by simp⟩
      | Pop =>
          cases hr : j.ref_impl.getLast? with
          | some x =>
              exact Or.inr ⟨.Continue .Pop, ⟨rest, j.ref_impl.dropLast, j.expect ++ [x]⟩,
                [x], by simp [stepScenario, hs, hr], rfl, by simp⟩
          | none =>
              exact Or.inl ⟨"bad sim: more pops than pushes", by simp [stepScenario, hs, hr]⟩
      | Value v =>
          exact Or.inl ⟨"bad sim: Value in scenario", by simp [stepScenario, hs]⟩

/-! ### Claim theorems -/

/-- Claim C1: for every arbiter and subject, an `Outcome` returned by the
driver `judge` never has `Continue` as its judgment: whenever `judge` returns
`Ok(outcome)`, the judgment is `Done` or `Halt`; a `Continue` verdict is
always consumed by issuing another turn. -/
theorem judge_never_returns_continue :
    ∀ (A M S E O : Type) (next : A → List M → Except E (Judgment M S × A))
      (a : A) (object : O → M → List M × O) (o : O) (fuel : Nat) (outc : Outcome M S),
      judge next a object o fuel = some (.ok outc) →
      outc.judgment = .Done ∨ ∃ s, outc.judgment = .Halt s := by
  intro A M S E O next a object o fuel outc h
  exact judgeLoop_no_continue next object fuel a o [] 0 outc h

/-- Witness for C1: a one-turn run returning `Done` instantiates the theorem. -/
theorem judge_never_returns_continue_witness :
    (Outcome.mk (M := StackChange) (S := String) .Done 0).judgment = .Done ∨
      ∃ s, (Outcome.mk (M := StackChange) (S := String) .Done 0).judgment = .Halt s :=
  judge_never_returns_continue StackJudge StackChange String String Unit
    StackJudge.next (StackJudge.new_scenario []) demo_impl_discard () 1 ⟨.Done, 0⟩ (by rfl)

/-- Claim C2: `outcome.calls` equals exactly the number of subject
invocations (the instrumented loop, which bumps its `oc` counter precisely
where the subject callable is applied, agrees with `judge` and reports
`oc = calls`); an arbiter that returns `Done` on its very first call yields
`calls == 0`; and on `scenario_1` the faithful stack subject finishes with
`Done` and `calls == 7`. -/
theorem judge_calls_count :
    (∀ (A M S E O : Type) (next : A → List M → Except E (Judgment M S × A))
        (a : A) (object : O → M → List M × O) (o : O) (fuel : Nat),
        judge next a object o fuel =
          (judgeInstr next a object o fuel).map (fun r => r.map Prod.fst)) ∧
    (∀ (A M S E O : Type) (next : A → List M → Except E (Judgment M S × A))
        (a : A) (object : O → M → List M × O) (o : O) (fuel : Nat)
        (outc : Outcome M S) (oc nc : Nat),
        judgeInstr next a object o fuel = some (.ok (outc, oc, nc)) →
        outc.calls = oc) ∧
    (∀ (A M S E O : Type) (next : A → List M → Except E (Judgment M S × A))
        (a a' : A) (object : O → M → List M × O) (o : O) (fuel : Nat),
        next a [] = .ok (.Done, a') →
        judge next a object o (fuel + 1) = some (.ok ⟨.Done, 0⟩)) ∧
    judge StackJudge.next scenario_1 demo_impl_good [] 20 = some (.ok ⟨.Done, 7⟩) := by
  refine ⟨?_, ?_, ?_, by rfl⟩
  · intro A M S E O next a object o fuel
    exact judgeLoopInstr_fst next object fuel a o [] 0 0 0
  · intro A M S E O next a object o fuel outc oc nc h
    have := judgeLoopInstr_counts next object fuel a o [] 0 0 0 outc oc nc h
    omega
  · intro A M S E O next a a' object o fuel h
    unfold judge judgeLoop
    rw [h]

/-- Witness for C2: a judge whose first answer is `Done` gives `calls = 0`. -/
theorem judge_calls_count_witness :
    judge StackJudge.next (StackJudge.new_scenario []) demo_impl_discard () 1 =
      some (.ok ⟨.Done, 0⟩) :=
  judge_calls_count.2.2.1 StackJudge StackChange String String Unit
    StackJudge.next (StackJudge.new_scenario []) (StackJudge.new_scenario [])
    demo_impl_discard () 0 (by rfl)

/-- Claim C3: the first call the driver makes to the arbiter passes the empty
reaction vector, whatever state the arbiter starts in; and the recorded trace
of arguments is genuine, having exactly as many entries as the instrumented
loop counts arbiter invocations. -/
theorem judge_first_call_empty :
    (∀ (A M S E O : Type) (next : A → List M → Except E (Judgment M S × A))
        (a : A) (object : O → M → List M × O) (o : O) (fuel : Nat),
        (judgeNextArgs next a object o (fuel + 1)).head? = some []) ∧
    (∀ (A M S E O : Type) (next : A → List M → Except E (Judgment M S × A))
        (a : A) (object : O → M → List M × O) (o : O) (fuel : Nat)
        (outc : Outcome M S) (oc nc : Nat),
        judgeInstr next a object o fuel = some (.ok (outc, oc, nc)) →
        (judgeNextArgs next a object o fuel).length = nc) := by
  constructor
  · intro A M S E O next a object o fuel
    rfl
  · intro A M S E O next a object o fuel outc oc nc h
    have := nextCallArgs_length next object fuel a o [] 0 0 0 outc oc nc h
    unfold judgeNextArgs
    omega

/-- Witness for C3: on the `scenario_1` run of the discarding subject the
arbiter is consulted 8 times. -/
theorem judge_first_call_empty_witness :
    (judgeNextArgs StackJudge.next scenario_1 demo_impl_discard () 20).length = 8 :=
  judge_first_call_empty.2 StackJudge StackChange String String Unit
    StackJudge.next scenario_1 demo_impl_discard () 20 ⟨.Done, 7⟩ 7 8 (by rfl)

/-- Claim C10: whenever the driver returns `Ok(outcome)`, the arbiter's
`next` was invoked exactly `outcome.calls + 1` times — one more than the
subject callable was invoked. -/
theorem judge_next_called_once_more :
    (∀ (A M S E O : Type) (next : A → List M → Except E (Judgment M S × A))
        (a : A) (object : O → M → List M × O) (o : O) (fuel : Nat),
        judge next a object o fuel =
          (judgeInstr next a object o fuel).map (fun r => r.map Prod.fst)) ∧
    (∀ (A M S E O : Type) (next : A → List M → Except E (Judgment M S × A))
        (a : A) (object : O → M → List M × O) (o : O) (fuel : Nat)
        (outc : Outcome M S) (oc nc : Nat),
        judgeInstr next a object o fuel = some (.ok (outc, oc, nc)) →
        nc = outc.calls + 1 ∧ nc = oc + 1) := by
  constructor
  · intro A M S E O next a object o fuel
    exact judgeLoopInstr_fst next object fuel a o [] 0 0 0
  · intro A M S E O next a object o fuel outc oc nc h
    have := judgeLoopInstr_counts next object fuel a o [] 0 0 0 outc oc nc h
    omega

/-- Witness for C10: on the `scenario_1` run of the faithful stack subject,
the subject is called 7 times and the arbiter 8 times. -/
theorem judge_next_called_once_more_witness :
    (8 : Nat) = (Outcome.mk (M := StackChange) (S := String) .Done 7).calls + 1 ∧
      (8 : Nat) = 7 + 1 :=
  judge_next_called_once_more.2 StackJudge StackChange String String (List Int)
    StackJudge.next scenario_1 demo_impl_good [] 20 ⟨.Done, 7⟩ 7 8 (by rfl)

/-- Claim C4: a `StackJudge` whose scenario is exhausted while its
expectation queue still holds entries returns `Done` — not `Halt` — as long
as the produced reactions pass the comparison (no over-production, no halt
from the comparison loop); concretely, the always-silent subject passes
`scenario_1` with `Done`. -/
theorem stackJudge_done_on_exhausted_scenario :
    (∀ (j : StackJudge) (reactions : List StackChange),
        j.scenario = [] → j.expect ≠ [] →
        reactions.length ≤ j.expect.length →
        (∀ s, checkLoop reactions (j.expect.take reactions.length) ≠ .halt s) →
        ∃ j', StackJudge.next j reactions = .ok (.Done, j')) ∧
    judge StackJudge.next scenario_1 demo_impl_discard () 20 = some (.ok ⟨.Done, 7⟩) := by
  refine ⟨?_, by rfl⟩
  intro j reactions hscen hne hlen hok
  unfold StackJudge.next
  rw [if_neg (Nat.not_lt.mpr hlen)]
  cases hc : checkLoop reactions (j.expect.take reactions.length) with
  | halt s => exact absurd hc (hok s)
  | brk e =>
      refine ⟨⟨j.scenario, j.ref_impl, e :: j.expect.drop reactions.length⟩, ?_⟩
      simp [stepScenario, hscen]
  | finished =>
      refine ⟨⟨j.scenario, j.ref_impl, j.expect.drop reactions.length⟩, ?_⟩
      simp [stepScenario, hscen]

/-- Witness for C4: a judge with an exhausted scenario and one outstanding
expectation answers `Done` to an empty reaction vector. -/
theorem stackJudge_done_on_exhausted_scenario_witness :
    ∃ j', StackJudge.next ⟨[], [], [5]⟩ [] = .ok (.Done, j') :=
  stackJudge_done_on_exhausted_scenario.1 ⟨[], [], [5]⟩ [] rfl (by simp)
    (by simp) (fun s h => by simp [checkLoop] at h)

/-- Claim C6: whenever the subject returns strictly more reactions than the
judge has outstanding expectations, that turn halts with fault
"too many reactions", and the driver then stops with `calls` equal to the
turn at which the over-production occurred; concretely, the over-producing
subject halts `scenario_1` on turn 1. -/
theorem stackJudge_overproduction_halts :
    (∀ (j : StackJudge) (reactions : List StackChange),
        j.expect.length < reactions.length →
        StackJudge.next j reactions = .ok (.Halt "too many reactions", j)) ∧
    (∀ (A M S E O : Type) (next : A → List M → Except E (Judgment M S × A))
        (object : O → M → List M × O) (fuel : Nat) (a a' : A) (o : O)
        (out : List M) (ite : Nat) (s : S),
        next a out = .ok (.Halt s, a') →
        judgeLoop next object (fuel + 1) a o out ite = some (.ok ⟨.Halt s, ite⟩)) ∧
    judge StackJudge.next scenario_1 demo_impl_dumb () 20 =
      some (.ok ⟨.Halt "too many reactions", 1⟩) := by
  refine ⟨?_, ?_, by rfl⟩
  · intro j reactions h
    unfold StackJudge.next
    rw [if_pos h]
  · intro A M S E O next object fuel a a' o out ite s h
    exact judgeLoop_halt_step next object fuel a a' o out ite s h

/-- Witness for C6: a judge with no outstanding expectations halts on a
single reaction. -/
theorem stackJudge_overproduction_halts_witness :
    StackJudge.next ⟨[], [], []⟩ [.Value none] =
      .ok (.Halt "too many reactions", ⟨[], [], []⟩) :=
  stackJudge_overproduction_halts.1 ⟨[], [], []⟩ [.Value none] (by simp)

/-- Claim C8: when the arbiter's `next` returns an internal error, the driver
stops at once and propagates it with no `Outcome`; a `StackJudge` whose
scenario pops an empty reference stack produces exactly the internal error
"bad sim: more pops than pushes", and the run on `scenario_2` ends in that
error rather than a `Halt`. -/
theorem judge_error_propagation :
    (∀ (A M S E O : Type) (next : A → List M → Except E (Judgment M S × A))
        (object : O → M → List M × O) (fuel : Nat) (a : A) (o : O)
        (out : List M) (ite : Nat) (e : E),
        next a out = .error e →
        judgeLoop next object (fuel + 1) a o out ite = some (.error e)) ∧
    (∀ (j : StackJudge) (rest : List StackChange),
        j.scenario = .Pop :: rest → j.ref_impl = [] →
        StackJudge.next j [] = .error "bad sim: more pops than pushes") ∧
    judge StackJudge.next scenario_2 demo_impl_good [] 20 =
      some (.error "bad sim: more pops than pushes") := by
  refine ⟨?_, ?_, by rfl⟩
  · intro A M S E O next object fuel a o out ite e h
    exact judgeLoop_error_step next object fuel a o out ite e h
  · intro j rest hscen href
    simp [StackJudge.next, checkLoop, stepScenario, hscen, href]

/-- Witness for C8: a scripted pop against the empty reference stack is the
internal-error path. -/
theorem judge_error_propagation_witness :
    StackJudge.next ⟨[.Pop], [], []⟩ [] = .error "bad sim: more pops than pushes" :=
  judge_error_propagation.2.1 ⟨[.Pop], [], []⟩ [] rfl rfl

/-- Claim C5: if the k-th reaction of a turn is a reported value `v` that
disagrees with the k-th outstanding expectation `e`, while every earlier
reaction matches its expectation, the turn halts with the fault
`expected e, got v` — whatever reactions and expectations follow the mismatch
position, so no expectation past the mismatch affects the verdict — and
concretely the zero-reporting subject halts `scenario_1` with the fault
"expected 3, got 0". -/
theorem stackJudge_mismatch_halts :
    (∀ (j : StackJudge) (ms tl : List Int) (e v : Int) (rest : List StackChange),
        j.expect = ms ++ e :: tl →
        rest.length ≤ tl.length →
        v ≠ e →
        ∃ j', StackJudge.next j
            (ms.map (fun x => .Value (some x)) ++ .Value (some v) :: rest) =
          .ok (.Halt ("expected " ++ toString e ++ ", got " ++ toString v), j')) ∧
    judge StackJudge.next scenario_1 demo_impl_zero_smart 0 20 =
      some (.ok ⟨.Halt "expected 3, got 0", 4⟩) := by
  refine ⟨?_, by rfl⟩
  intro j ms tl e v rest he hlen hne
  have hrlen : (ms.map (fun x => StackChange.Value (some x)) ++
      StackChange.Value (some v) :: rest).length = ms.length + (rest.length + 1) := by
    simp
  have hexplen : j.expect.length = ms.length + (tl.length + 1) := by simp [he]
  have htake : j.expect.take ((ms.map (fun x => StackChange.Value (some x)) ++
      StackChange.Value (some v) :: rest).length) = ms ++ e :: tl.take rest.length := by
    rw [hrlen, he, List.take_append_eq_append_take, List.take_of_length_le (by omega)]
    have h2 : ms.length + (rest.length + 1) - ms.length = rest.length + 1 := by omega
    rw [h2, List.take_succ_cons]
  have hguard : ¬ j.expect.length < (ms.map (fun x => StackChange.Value (some x)) ++
      StackChange.Value (some v) :: rest).length := by
    rw [hexplen, hrlen]; omega
  unfold StackJudge.next
  rw [if_neg hguard, htake, checkLoop_matched]
  refine ⟨⟨j.scenario, j.ref_impl,
    j.expect.drop ((ms.map (fun x => StackChange.Value (some x)) ++
      StackChange.Value (some v) :: rest).length)⟩, ?_⟩
  simp [checkLoop, hne]

/-- Witness for C5: a single mismatching reported value halts the turn with
the fault naming the expected and actual values. -/
theorem stackJudge_mismatch_halts_witness :
    ∃ j', StackJudge.next ⟨[], [], [3]⟩ [.Value (some 0)] =
      .ok (.Halt ("expected " ++ toString (3 : Int) ++ ", got " ++ toString (0 : Int)), j') :=
  stackJudge_mismatch_halts.1 ⟨[], [], [3]⟩ [] [] 3 0 [] rfl (by simp) (by decide)

/-- Claim C7 (counterexample): it is not true that every expectation not
matched against a produced value stays in the queue.  With expectations
`[3, 5]` and reactions `[Value(None), Value(Some(5))]` the comparison stops
at the `Value(None)` in position 0, yet the drain of `expect` removes both
leading entries and only the put-back `3` returns to the queue: expectation
`5` — present beforehand and never compared — is gone when `next` returns. -/
theorem stackJudge_unmatched_expectation_lost :
    StackJudge.next ⟨[], [], [3, 5]⟩ [.Value none, .Value (some 5)] =
      .ok (.Done, ⟨[], [], [3]⟩) ∧
    (5 : Int) ∈ (StackJudge.mk [] [] [3, 5]).expect ∧
    (5 : Int) ∉ (StackJudge.mk [] [] [3]).expect :=
  ⟨by rfl, by decide, by decide⟩

/-- Claim C7 (amended): on a turn with no over-production, the judge compares
only as many leading expectations as the subject produced reactions; if no
reaction is `Value(None)`, the first `reactions.len()` expectations are
consumed and every later expectation stays, in order, at the front of the
queue (with at most one freshly popped value appended behind them); if the
comparison breaks at the first `Value(None)`, in position `k`, the whole
drained range is still removed and only the `k`-th expectation is pushed
back, so the unmatched expectations in positions `k+1 .. reactions.len()-1`
are dropped from the queue. -/
theorem stackJudge_queue_after_turn :
    ∀ (j : StackJudge) (reactions : List StackChange),
      reactions.length ≤ j.expect.length →
      ((StackChange.Value none ∉ reactions →
        (∃ e, StackJudge.next j reactions = .error e) ∨
        (∃ jd j' t, StackJudge.next j reactions = .ok (jd, j') ∧
          j'.expect = j.expect.drop reactions.length ++ t ∧ t.length ≤ 1)) ∧
      (∀ e, checkLoop reactions (j.expect.take reactions.length) = .brk e →
        (∃ er, StackJudge.next j reactions = .error er) ∨
        (∃ jd j' t, StackJudge.next j reactions = .ok (jd, j') ∧
          j'.expect = e :: (j.expect.drop reactions.length ++ t) ∧ t.length ≤ 1)) ∧
      (∀ e, checkLoop reactions (j.expect.take reactions.length) = .brk e →
        ∃ k, reactions.get? k = some (.Value none) ∧
          (j.expect.take reactions.length).get? k = some e ∧
          ∀ i, i < k → reactions.get? i ≠ some (.Value none))) := by
  intro j reactions hlen
  have hguard : ¬ j.expect.length < reactions.length := Nat.not_lt.mpr hlen
  refine ⟨?_, ?_, ?_⟩
  · intro hnone
    unfold StackJudge.next
    rw [if_neg hguard]
    cases hc : checkLoop reactions (j.expect.take reactions.length) with
    | halt s =>
        exact Or.inr ⟨.Halt s, ⟨j.scenario, j.ref_impl, j.expect.drop reactions.length⟩,
          [], rfl, by simp, by simp⟩
    | brk e => exact absurd (checkLoop_brk_of_mem reactions _ e hc) hnone
    | finished =>
        rcases stepScenario_expect ⟨j.scenario, j.ref_impl, j.expect.drop reactions.length⟩
          with ⟨e, he⟩ | ⟨jd, j', t, hok, hexp, ht⟩
        · exact Or.inl ⟨e, he⟩
        · exact Or.inr ⟨jd, j', t, hok, hexp, ht⟩
  · intro e hc
    unfold StackJudge.next
    rw [if_neg hguard, hc]
    rcases stepScenario_expect ⟨j.scenario, j.ref_impl, e :: j.expect.drop reactions.length⟩
      with ⟨er, her⟩ | ⟨jd, j', t, hok, hexp, ht⟩
    · exact Or.inl ⟨er, her⟩
    · exact Or.inr ⟨jd, j', t, hok, by simpa using hexp, ht⟩
  · intro e hc
    exact checkLoop_brk_first reactions _ e hc

/-- Witness for C7 (amended): a fully matching single reaction leaves the
queue at its one-step drop. -/
theorem stackJudge_queue_after_turn_witness :
    (∃ e, StackJudge.next ⟨[], [], [3]⟩ [.Value (some 3)] = .error e) ∨
    (∃ jd j' t, StackJudge.next ⟨[], [], [3]⟩ [.Value (some 3)] = .ok (jd, j') ∧
      j'.expect = (([3] : List Int).drop 1) ++ t ∧ t.length ≤ 1) :=
  (stackJudge_queue_after_turn ⟨[], [], [3]⟩ [.Value (some 3)] (by simp)).1 (by decide)

/-- Claim C9: the strict wrapper `judge_panic` returns `calls` on `Done`,
panics with a message embedding `calls` and the fault on `Halt`, panics with
a distinct message on a terminal `Continue`, and with a third on an internal
error; the three failure messages are distinguishable by their prefixes
"subject fault", "judge fault" and "judge fail" (already their first ten
characters differ pairwise). -/
theorem judge_panic_spec :
    (∀ (A M S E O : Type) (next : A → List M → Except E (Judgment M S × A))
        (a : A) (object : O → M → List M × O) (o : O) (fuel : Nat)
        (showFault : S → String) (showErr : E → String) (c : Nat),
        judge next a object o fuel = some (.ok ⟨.Done, c⟩) →
        judge_panic next a object o fuel showFault showErr = some (.inl c)) ∧
    (∀ (A M S E O : Type) (next : A → List M → Except E (Judgment M S × A))
        (a : A) (object : O → M → List M × O) (o : O) (fuel : Nat)
        (showFault : S → String) (showErr : E → String) (c : Nat) (f : S),
        judge next a object o fuel = some (.ok ⟨.Halt f, c⟩) →
        judge_panic next a object o fuel showFault showErr =
          some (.inr (subjectFaultMsg c (showFault f)))) ∧
    (∀ (A M S E O : Type) (next : A → List M → Except E (Judgment M S × A))
        (a : A) (object : O → M → List M × O) (o : O) (fuel : Nat)
        (showFault : S → String) (showErr : E → String) (c : Nat) (m : M),
        judge next a object o fuel = some (.ok ⟨.Continue m, c⟩) →
        judge_panic next a object o fuel showFault showErr =
          some (.inr (judgeFaultMsg c))) ∧
    (∀ (A M S E O : Type) (next : A → List M → Except E (Judgment M S × A))
        (a : A) (object : O → M → List M × O) (o : O) (fuel : Nat)
        (showFault : S → String) (showErr : E → String) (e : E),
        judge next a object o fuel = some (.error e) →
        judge_panic next a object o fuel showFault showErr =
          some (.inr (judgeFailMsg (showErr e)))) ∧
    (∀ (c : Nat) (w : String), (subjectFaultMsg c w).data.take 13 = "subject fault".data) ∧
    (∀ (c : Nat), (judgeFaultMsg c).data.take 11 = "judge fault".data) ∧
    (∀ (e : String), (judgeFailMsg e).data.take 10 = "judge fail".data) ∧
    (∀ (c c' : Nat) (w e : String),
      (subjectFaultMsg c w).data.take 10 ≠ (judgeFaultMsg c').data.take 10 ∧
      (subjectFaultMsg c w).data.take 10 ≠ (judgeFailMsg e).data.take 10 ∧
      (judgeFaultMsg c').data.take 10 ≠ (judgeFailMsg e).data.take 10) := by
  have hsub : ∀ (c : Nat) (w : String),
      (subjectFaultMsg c w).data.take 10 = "subject fa".data := by
    intro c w
    unfold subjectFaultMsg
    rw [String.data_append, String.data_append, String.data_append,
      List.append_assoc, List.append_assoc,
      List.take_append_of_le_length (by decide)]
    decide
  have hjfault : ∀ (c : Nat),
      (judgeFaultMsg c).data.take 10 = "judge faul".data := by
    intro c
    unfold judgeFaultMsg
    rw [String.data_append, String.data_append, List.append_assoc,
      List.take_append_of_le_length (by decide)]
    decide
  have hjfail : ∀ (e : String),
      (judgeFailMsg e).data.take 10 = "judge fail".data := by
    intro e
    unfold judgeFailMsg
    rw [String.data_append, List.take_append_of_le_length (by decide)]
    decide
  refine ⟨?_, ?_, ?_, ?_, ?_, ?_, ?_, ?_⟩
  · intro A M S E O next a object o fuel showFault showErr c h
    simp [judge_panic, h, Outcome.decompose, Except.map]
  · intro A M S E O next a object o fuel showFault showErr c f h
    simp [judge_panic, h, Outcome.decompose, Except.map]
  · intro A M S E O next a object o fuel showFault showErr c m h
    simp [judge_panic, h, Outcome.decompose, Except.map]
  · intro A M S E O next a object o fuel showFault showErr e h
    simp [judge_panic, h, Outcome.decompose, Except.map]
  · intro c w
    unfold subjectFaultMsg
    rw [String.data_append, String.data_append, String.data_append,
      List.append_assoc, List.append_assoc,
      List.take_append_of_le_length (by decide)]
    decide
  · intro c
    unfold judgeFaultMsg
    rw [String.data_append, String.data_append, List.append_assoc,
      List.take_append_of_le_length (by decide)]
    decide
  · intro e
    unfold judgeFailMsg
    rw [String.data_append, List.take_append_of_le_length (by decide)]
    decide
  · intro c c' w e
    rw [hsub c w, hjfault c', hjfail e]
    refine ⟨by decide, by decide, by decide⟩

/-- Witness for C9: a one-turn `Done` run makes the strict wrapper return the
call count 0. -/
theorem judge_panic_spec_witness :
    judge_panic StackJudge.next (StackJudge.new_scenario []) demo_impl_discard () 1
      id id = some (.inl 0) :=
  judge_panic_spec.1 StackJudge StackChange String String Unit
    StackJudge.next (StackJudge.new_scenario []) demo_impl_discard () 1 id id 0 (by rfl)

end Caet
